import Mathlib

/-!
Verification development for the redeem-code crawler.

This file gives a shallow embedding, in Lean 4, of the parts of the
crawler that the specification talks about:

* `src/utils/code_extractor.py` — the `CodeExtractor` class
  (`extract`, `extract_from_url`, `_is_valid_code`, `COMMON_EXCLUSIONS`);
* `src/services/code_service.py` — `CodeService.save_code`,
  `CodeService.code_exists`, `ArticleService.is_scraped`;
* `src/scrapers/arca_scraper.py` — the listing/date-filter logic of
  `ArcaScraper.get_article_list` and the pagination and detail-stage
  age-check of `ArcaScraper.scrape_articles`;
* `src/scrapers/youtube_scraper.py` — `YoutubeScraper._parse_game_codes`.

Python strings are modelled as Lean `String` / `List Char`.  The embedding
models text at the ASCII level: `str.upper`, `str.isdigit`, `str.isalpha`
and the regex character classes are given their ASCII meaning (the regex
classes `[A-Z0-9]`, `[A-Za-z0-9]` are ASCII by definition; `\w` and
`\b` are modelled with the ASCII word characters `[A-Za-z0-9_]`).
Database tables are modelled as lists of records in insertion order, and
the SQL queries of the services are modelled by the corresponding list
operations (`first() is not None` becomes `List.any`, SQLite `LIKE`
becomes an explicit wildcard matcher, ASCII-case-insensitive as SQLite's
default `LIKE` is).
-/

/-! ### ASCII character classes

`isDigitCh`, `isAlphaCh` model Python's `str.isdigit` / `str.isalpha`
character tests on ASCII text; `isAlnumCh` is the regex class
`[A-Za-z0-9]`; `isUpperAlnum` is the regex class `[A-Z0-9]`;
`isWordCh` models the regex `\w` (hence `\b`) on ASCII text. -/

def isUpperCh (c : Char) : Bool := decide ('A' ≤ c) && decide (c ≤ 'Z')

def isLowerCh (c : Char) : Bool := decide ('a' ≤ c) && decide (c ≤ 'z')

def isDigitCh (c : Char) : Bool := decide ('0' ≤ c) && decide (c ≤ '9')

def isAlphaCh (c : Char) : Bool := isUpperCh c || isLowerCh c

def isAlnumCh (c : Char) : Bool := isAlphaCh c || isDigitCh c

def isUpperAlnum (c : Char) : Bool := isUpperCh c || isDigitCh c

def isWordCh (c : Char) : Bool := isAlnumCh c || c == '_'

/-- ASCII model of Python `str.upper` on one character. -/
def upChar (c : Char) : Char :=
  if isLowerCh c then Char.ofNat (c.toNat - 32) else c

/-- ASCII model of Python `str.lower` on one character (used for the
case-insensitive regex flag and SQLite's case-insensitive `LIKE`). -/
def lowChar (c : Char) : Char :=
  if isUpperCh c then Char.ofNat (c.toNat + 32) else c

/-! ### String helpers (over `List Char`) -/

/-- `strStartsL p l`: `l` starts with `p` (exact match). -/
def strStartsL : List Char → List Char → Bool
  | [], _ => true
  | _ :: _, [] => false
  | a :: p, b :: l => a == b && strStartsL p l

/-- `ciStartsL p l`: `l` starts with `p`, ASCII-case-insensitively. -/
def ciStartsL : List Char → List Char → Bool
  | [], _ => true
  | _ :: _, [] => false
  | a :: p, b :: l => lowChar a == lowChar b && ciStartsL p l

/-- `strHasSubL p l`: `p` occurs as a contiguous substring of `l`
(Python's `p in l` on strings). -/
def strHasSubL (p : List Char) : List Char → Bool
  | [] => strStartsL p []
  | c :: t => strStartsL p (c :: t) || strHasSubL p t

/-- Python lexicographic string order (code-point comparison). -/
def strLtL : List Char → List Char → Bool
  | [], [] => false
  | [], _ :: _ => true
  | _ :: _, [] => false
  | a :: as, b :: bs => decide (a < b) || (a == b && strLtL as bs)

/-- Insertion step of `pySorted`. -/
def insertStr (a : String) : List String → List String
  | [] => [a]
  | b :: t => if strLtL a.toList b.toList then a :: b :: t else b :: insertStr a t

/-- Model of Python `sorted` on a list of strings: ascending
lexicographic (code-point) order.  Python uses a stable mergesort; on the
duplicate-free lists `extract` sorts, insertion sort produces the same
output. -/
def pySorted : List String → List String
  | [] => []
  | a :: t => insertStr a (pySorted t)

/-- Python `str.isdigit` (ASCII model): nonempty and all digits. -/
def pyIsDigit (cs : List Char) : Bool := !cs.isEmpty && cs.all isDigitCh

/-! ### CodeExtractor (src/utils/code_extractor.py) -/

/-- `CodeExtractor.COMMON_EXCLUSIONS` (the default `exclusions` set). -/
def COMMON_EXCLUSIONS : List String :=
  [ "HTTPS", "HTTP", "HTML", "CSS", "JSON", "XML", "JAVASCRIPT",
    "YOUTUBE", "TWITTER", "FACEBOOK", "INSTAGRAM", "DISCORD",
    "GOOGLE", "CHROME", "FIREFOX", "SAFARI", "WINDOWS", "ANDROID",
    "GENSHIN", "IMPACT", "STARRAIL", "HONKAI", "MIHOYO", "HOYOVERSE",
    "ZENLESS", "ZONEZERO", "TEYVAT", "FONTAINE", "SUMERU", "INAZUMA",
    "SPREADSHEETS", "SPREADSHEET", "DOWNLOAD", "UPLOADED", "COMMUNITY",
    "OFFICIAL", "INFORMATION", "REDEEM", "REDEMPTION", "PRIMOGEMS",
    "CHARACTER", "CHARACTERS", "CONSTELLATION", "CONSTELLATIONS",
    "ANNIVERSARY", "LIVESTREAM", "BROADCAST", "MAINTENANCE",
    "INTERTWINED", "ACQUAINT", "STARDUST", "STARGLITTER",
    "ADVENTURE", "TRAVELERS", "TRAVELER", "BLESSING", "WELKIN",
    "GENESIS", "CRYSTALS", "RESIN", "FRAGILE", "ORIGINAL",
    "ARTIFACT", "ARTIFACTS", "WEAPON", "WEAPONS", "DOMAIN",
    "COMMISSION", "COMMISSIONS", "REPUTATION", "EXPLORATION",
    "ABYSS", "SPIRAL", "FLOOR", "CHAMBER", "VERSION", "UPDATE",
    "PREMIUM", "SUBSCRIPTION", "PURCHASE", "PAYMENT", "REWARD" ]

/-- The `special_keywords` list of `CodeExtractor._is_valid_code`. -/
def special_keywords : List String := ["GIFT", "CODE", "REWARD", "FREE", "BONUS"]

/-- `l` starts with `code=` matched case-insensitively (the tail of the
regex `[?&]code=` under `re.IGNORECASE`). -/
def startsCodeEq : List Char → Bool
  | a :: b :: c :: d :: e :: _ =>
    lowChar a == 'c' && lowChar b == 'o' && lowChar c == 'd' &&
      lowChar d == 'e' && e == '='
  | _ => false

/-- Scanner for `URL_CODE_PATTERN.findall`: the regex
`[?&]code=([A-Za-z0-9]+)` with `re.IGNORECASE`, returning the capture
groups of the non-overlapping matches from left to right.  At a `?` or
`&` followed (case-insensitively) by `code=` and at least one
alphanumeric character, the greedy `+` captures the maximal alphanumeric
run and scanning resumes after it; any failed attempt advances the scan
by one character, exactly as `re.findall` does. -/
def urlScanAux : Nat → List Char → List (List Char)
  | 0, _ => []
  | _ + 1, [] => []
  | fuel + 1, c :: t =>
    if (c == '?' || c == '&') && startsCodeEq t then
      let run := (t.drop 5).takeWhile isAlnumCh
      if run.isEmpty then urlScanAux fuel t
      else run :: urlScanAux fuel ((t.drop 5).dropWhile isAlnumCh)
    else urlScanAux fuel t

/-- The scanner, started with enough fuel: every recursive call of
`urlScanAux` is on a proper suffix of the previous list, so fuel equal
to the length of the input can never run out. -/
def urlScan (l : List Char) : List (List Char) := urlScanAux l.length l

/-- `CodeExtractor.extract_from_url`: find all `code=` URL-parameter
values in the text and return them uppercased, in match order. -/
def extract_from_url (text : String) : List String :=
  if text = "" then []
  else (urlScan text.toList).map (fun run => String.mk (run.map upChar))

/-- Maximal runs of regex word characters (`\w+` tokens) of a character
list, in order.  Used to model `\b`-delimited matching. -/
def wordRuns : List Char → List (List Char)
  | [] => []
  | c :: t =>
    let rest := wordRuns t
    if isWordCh c then
      match t with
      | [] => [[c]]
      | d :: _ =>
        if isWordCh d then
          match rest with
          | r :: rs => (c :: r) :: rs
          | [] => [[c]]
        else [c] :: rest
    else rest

/-- `re.findall` of the default pattern `\b[A-Z0-9]{8,16}\b` on a
character list.  A match of this pattern must start at a word boundary,
i.e. at the start of a maximal `\w+` run, and end at a word boundary,
i.e. at the end of that run (interior positions of a run have word
characters on both sides, and greedy backtracking inside a run never
reaches a boundary).  Hence the matches are exactly the maximal word
runs that consist entirely of `[A-Z0-9]` and have length 8 to 16. -/
def patternFindall (l : List Char) : List String :=
  ((wordRuns l).filter fun r =>
      r.all isUpperAlnum && decide (8 ≤ r.length) && decide (r.length ≤ 16)).map
    String.mk

/-- `CodeExtractor._is_valid_code`. -/
def is_valid_code (code : String) : Bool :=
  let cs := code.toList
  if pyIsDigit cs then false
  else if cs.length < 10 then false
  else if strHasSubL "XXXX".toList cs then false
  else
    let has_letter := cs.any isAlphaCh
    let has_digit := cs.any isDigitCh
    if has_letter && has_digit then true
    else if has_letter && !has_digit then
      special_keywords.any fun k => strHasSubL k.toList cs && code != k
    else false

/-- `CodeExtractor.extract` with the default pattern and exclusion set,
as constructed by both scrapers (`patterns=[DEFAULT_PATTERN]`,
`exclusions=COMMON_EXCLUSIONS`): URL-parameter codes are collected
without validation, the uppercased text is scanned with the default
pattern, the union is filtered (URL-derived codes are kept
unconditionally; the rest must avoid the exclusion list and pass
`_is_valid_code`), and the result is returned sorted. -/
def extract (text : String) : List String :=
  if text = "" then []
  else
    let text_upper := text.toList.map upChar
    let url_codes := extract_from_url text
    let found_codes := (url_codes ++ patternFindall text_upper).dedup
    let filtered_codes := found_codes.filter fun c =>
      url_codes.contains c || (!COMMON_EXCLUSIONS.contains c && is_valid_code c)
    pySorted filtered_codes

/-! ### Persistence services (src/services/code_service.py,
src/database/models.py)

The `redeem_codes` and `scraped_articles` tables are modelled as lists
of records in insertion order.  The services are modelled sequentially
(one operation at a time), which is how the crawler invokes them; the
`IntegrityError` branch of `save_code` that catches a concurrent insert
between its `code_exists` check and its commit therefore never fires in
the model. -/

/-- A row of the `redeem_codes` table (`RedeemCode` model; the `code`
column carries a unique constraint, which the sequential model keeps as
an invariant because `save_code` refuses duplicates). -/
structure RedeemCodeRec where
  code : String
  game : String
  source_url : Option String
  source_title : Option String
deriving DecidableEq

/-- A row of the `scraped_articles` table (`ScrapedArticle` model). -/
structure ScrapedArticleRec where
  url : String
  game : String
  title : Option String
  codes_found : Nat
deriving DecidableEq

/-- `CodeService.code_exists`: `query(RedeemCode).filter_by(code=code).first() is not None`. -/
def code_exists (db : List RedeemCodeRec) (code : String) : Bool :=
  db.any fun rec => rec.code == code

/-- `CodeService.save_code`: returns the new table contents together
with the `(bool, message)` result tuple. -/
def save_code (db : List RedeemCodeRec) (code game : String)
    (source_url source_title : Option String) :
    List RedeemCodeRec × Bool × String :=
  if code_exists db code then (db, false, "이미 존재하는 코드: " ++ code)
  else (db ++ [⟨code, game, source_url, source_title⟩], true, "새 코드 저장됨: " ++ code)

/-- Python `url.split('?')[0]`: the URL up to (excluding) the first `?`. -/
def stripQuery (url : String) : String :=
  String.mk (url.toList.takeWhile fun c => c != '?')

/-- SQL `LIKE` matching as SQLite (the configured database) evaluates
it: `%` matches any sequence, `_` matches any single character, and
ordinary characters compare ASCII-case-insensitively (SQLite's default
`LIKE` behaviour).  Fuel-based so that it computes; fuel bounded by
pattern length plus subject length suffices since every recursive call
shrinks one of the two. -/
def likeMatchAux : Nat → List Char → List Char → Bool
  | 0, _, _ => false
  | _ + 1, [], s => s.isEmpty
  | fuel + 1, c :: p, s =>
    if c == '%' then
      likeMatchAux fuel p s ||
        (match s with
         | [] => false
         | _ :: s' => likeMatchAux fuel (c :: p) s')
    else
      match s with
      | [] => false
      | d :: s' => (c == '_' || lowChar c == lowChar d) && likeMatchAux fuel p s'

/-- `LIKE` with enough fuel. -/
def likeMatch (p s : List Char) : Bool := likeMatchAux (p.length + s.length + 1) p s

/-- `ArticleService.is_scraped`: strip the query string from the
candidate URL and test whether any stored row's `url` column matches
`LIKE base_url || '%'` — i.e. whether some stored full URL starts
(ASCII-case-insensitively, modulo `LIKE` wildcards in the base) with
the candidate's URL-without-query-string. -/
def is_scraped (db : List ScrapedArticleRec) (url : String) : Bool :=
  let base_url := stripQuery url
  db.any fun rec => likeMatch (base_url.toList ++ ['%']) rec.url.toList

/-- `ArticleService.mark_scraped`: insert a visited-marker row; the
unique constraint on `url` makes a duplicate insert roll back and
return `false`. -/
def mark_scraped (db : List ScrapedArticleRec) (url game : String)
    (title : Option String) (codes_found : Nat) : List ScrapedArticleRec × Bool :=
  if db.any fun rec => rec.url == url then (db, false)
  else (db ++ [⟨url, game, title, codes_found⟩], true)

/-! ### Listing crawler (src/scrapers/arca_scraper.py)

`ArcaScraper.get_article_list` parses a listing page into entries, each
with an `href`, a title and an optional `<time>` timestamp, and filters
them; `ArcaScraper.scrape_articles` drives it over pages 1..max_pages.
An entry is modelled by the three parsed fields; a timestamp is a `Nat`
(any totally ordered time works, only `<` against the cutoff is used).
The network fetch and HTML parsing are the entry list itself; the
detail-stage handling of one article is modelled separately below at
the granularity the date/keyword checks need. -/

/-- `config.ARCA_BASE_URL`. -/
def ARCA_BASE_URL : String := "https://arca.live"

/-- One parsed `a.vrow.column` listing entry. -/
structure ListEntry where
  href : String
  title : String
  date : Option Nat
deriving DecidableEq

/-- The full URL built from an entry's href: prepend the base URL to
root-relative hrefs. -/
def full_url_of (href : String) : String :=
  if strStartsL "/".toList href.toList then ARCA_BASE_URL ++ href else href

/-- The article-link test of `get_article_list`:
`'/b/' in href and href.count('/') >= 3`. -/
def href_is_article (href : String) : Bool :=
  strHasSubL "/b/".toList href.toList &&
    decide (3 ≤ href.toList.countP fun c => c == '/')

/-- The entry loop of `ArcaScraper.get_article_list`, given the age
cutoff, the visited test (`ArticleService.is_scraped` against the
current ledger) and the `skip_scraped` flag.  Returns the `(full_url,
title)` pairs the method collects, in page order, together with its
`found_old_article` flag.  An entry with a parsed date older than the
cutoff is skipped and sets the flag; otherwise the entry is kept when
it looks like an article link and is not already scraped. -/
def get_article_list_core (cutoff : Nat) (isScr : String → Bool) (skipScr : Bool) :
    List ListEntry → List (String × String) × Bool
  | [] => ([], false)
  | e :: rest =>
    let (arts, old) := get_article_list_core cutoff isScr skipScr rest
    let full_url := full_url_of e.href
    let isOld : Bool := match e.date with
      | some d => decide (d < cutoff)
      | none => false
    if isOld then (arts, true)
    else if href_is_article e.href && !(skipScr && isScr full_url) then
      ((full_url, e.title) :: arts, old)
    else (arts, old)

/-- The page loop of `ArcaScraper.scrape_articles`, at listing
granularity: per-article detail handling is abstracted into "the entry
is processed", since every iteration of the inner loop increments
`articles_processed` exactly once and the loop-control decisions depend
only on the listing data.  Arguments: the pages as served by the site
(page number to entry list), cutoff/visited-test/skip flag as above,
`max_articles`, then current page number, `articles_processed` so far,
and remaining pages (initially `max_pages`).  Returns the processed
`(url, title)` pairs and the list of listing pages actually fetched.
Mirrors the source: stop before fetching once the article budget is
exhausted; if a page yields no new entries, stop when it contained an
old entry, else continue; if it yields entries, process them up to the
budget, then stop if the page contained an old entry. -/
def crawl_pages (pages : Nat → List ListEntry) (cutoff : Nat)
    (isScr : String → Bool) (skipScr : Bool) (maxArticles : Nat) :
    Nat → Nat → Nat → List (String × String) × List Nat
  | _, _, 0 => ([], [])
  | page, processed, fuel + 1 =>
    if maxArticles ≤ processed then ([], [])
    else
      let (lst, found_old) := get_article_list_core cutoff isScr skipScr (pages page)
      if lst.isEmpty then
        if found_old then ([], [page])
        else
          let (arts, f) :=
            crawl_pages pages cutoff isScr skipScr maxArticles (page + 1) processed fuel
          (arts, page :: f)
      else
        let taken := lst.take (maxArticles - processed)
        if found_old then (taken, [page])
        else
          let (arts, f) :=
            crawl_pages pages cutoff isScr skipScr maxArticles (page + 1)
              (processed + taken.length) fuel
          (taken ++ arts, page :: f)

/-- `ArcaScraper.scrape_articles` for one listing source: pages are
numbered from 1 and at most `max_pages` are visited. -/
def scrape_articles_pages (pages : Nat → List ListEntry) (cutoff : Nat)
    (isScr : String → Bool) (skipScr : Bool) (maxPages maxArticles : Nat) :
    List (String × String) × List Nat :=
  crawl_pages pages cutoff isScr skipScr maxArticles 1 0 maxPages

/-! ### Detail-stage handling of one article
(`ArcaScraper.scrape_articles`, lines 325–395) -/

/-- What `scrape_articles` does with one article fetched from a listing:
it either skips it as too old (recording the URL as visited with zero
codes and running no extraction), skips it for lacking any filter
keyword (likewise recorded with zero codes, no extraction), or extracts
codes from title and body. -/
inductive DetailStep where
  | skippedOld
  | skippedNoKeyword
  | processed (codes : List String)
deriving DecidableEq

/-- The date used for the detail-level age re-check:
`check_date = modified_at or posted_at` (a parsed datetime is always
truthy in Python, so this takes the modified date when one was parsed
and falls back to the posted date). -/
def check_date (modified_at posted_at : Option Nat) : Option Nat :=
  match modified_at with
  | some m => some m
  | none => posted_at

/-- The `codes_found` count recorded by `mark_scraped` for each outcome. -/
def recorded_codes_found : DetailStep → Nat
  | .skippedOld => 0
  | .skippedNoKeyword => 0
  | .processed codes => codes.length

/-- Whether the extractor was run on the article. -/
def extraction_ran : DetailStep → Bool
  | .processed _ => true
  | _ => false

/-- One article's detail-stage processing.  `hasKw` is
`SiteManager.has_keyword` (a configuration-driven text test, abstracted
as a predicate); `content`, `posted_at`, `modified_at` are the results
of `get_article_content`.  Mirrors the source order: age re-check on
`modified_at or posted_at` first (no date at all means no skip), then
the keyword gate on title and body, then extraction over title and body
with the union deduplicated. -/
def process_detail (cutoff : Nat) (hasKw : String → Bool) (title : String)
    (content : Option String) (posted_at modified_at : Option Nat) : DetailStep :=
  let chk := check_date modified_at posted_at
  let isOld : Bool := match chk with
    | some d => decide (d < cutoff)
    | none => false
  if isOld then .skippedOld
  else
    let title_has_keyword := hasKw title
    let content_has_keyword : Bool := match content with
      | some c => hasKw c
      | none => false
    if !title_has_keyword && !content_has_keyword then .skippedNoKeyword
    else
      let codes_from_title := extract title
      let codes_from_content : List String := match content with
        | some c => extract c
        | none => []
      .processed ((codes_from_title ++ codes_from_content).dedup)

/-! ### Feed crawler (src/scrapers/youtube_scraper.py) -/

/-- `YoutubeScraper.DEFAULT_GAME_TAGS`, in dictionary (insertion)
order. -/
def DEFAULT_GAME_TAGS : List (String × String) :=
  [ ("[원신]", "genshin"),
    ("[스타레일]", "starrail"),
    ("[붕스]", "starrail"),
    ("[젠레스]", "zzz"),
    ("[젠존제]", "zzz"),
    ("[붕괴3rd]", "honkai3rd"),
    ("[붕삼]", "honkai3rd"),
    ("[명조]", "wuwa"),
    ("[블아]", "bluearchive"),
    ("[블루아카이브]", "bluearchive"),
    ("[소전2]", "gfl2"),
    ("[소녀전선2]", "gfl2"),
    ("[니케]", "nikke"),
    ("[트릭컬]", "trikkal"),
    ("[명방]", "arknights"),
    ("[명일방주]", "arknights"),
    ("[림버스]", "limbus") ]

/-- Does any configured tag start (case-insensitively, as under
`re.IGNORECASE`) at this position?  This is the lookahead
`(?=tag1|tag2|...)` of the per-tag segment regex. -/
def anyTagStarts (tags : List (String × String)) (l : List Char) : Bool :=
  tags.any fun tg => ciStartsL tg.1.toList l

/-- The lazy group `(.*?)(?=tag_patterns|$)` with `re.DOTALL`: collect
characters until the first position where some configured tag starts,
or where `$` matches (end of text, or just before a single trailing
newline — the pattern is not MULTILINE). -/
def takeUntilTag (tags : List (String × String)) : List Char → List Char
  | [] => []
  | c :: t =>
    if anyTagStarts tags (c :: t) then []
    else if c == '\n' && t.isEmpty then []
    else c :: takeUntilTag tags t

/-- `re.search(re.escape(tag) + ...)`: the suffix of the text just
after the first (case-insensitive) occurrence of `tag`, or `none` when
the tag does not occur. -/
def findAfterCi (pat : List Char) : List Char → Option (List Char)
  | [] => none
  | c :: t =>
    if ciStartsL pat (c :: t) then some ((c :: t).drop pat.length)
    else findAfterCi pat t

/-- The per-tag pass of `YoutubeScraper._parse_game_codes`: for each
configured tag present in the text (exact containment, as the guard
`if tag not in content: continue` tests), extract codes from the
segment after the tag up to the next tag or end of text; keep the
`(game_id, codes)` results whose code list is nonempty, in tag order. -/
def tag_results (tags : List (String × String)) (content : String) :
    List (String × List String) :=
  tags.filterMap fun tg =>
    if strHasSubL tg.1.toList content.toList then
      match findAfterCi tg.1.toList content.toList with
      | some rest =>
        let codes := extract (String.mk (takeUntilTag tags rest))
        if codes.isEmpty then none else some (tg.2, codes)
      | none => none
    else none

/-- `YoutubeScraper._parse_game_codes`: the per-tag results; when they
are empty and the crawl's declared game is not the multi-game marker
`"_multi"`, fall back to extracting from the whole item text under the
declared game (kept only when it yields codes).  Result records are
modelled by their `(game, codes)` fields; `source_url`/`source_title`
are constant metadata. -/
def parse_game_codes (tags : List (String × String)) (selfGame : String)
    (content : String) : List (String × List String) :=
  let results := tag_results tags content
  if results.isEmpty && selfGame != "_multi" then
    let codes := extract content
    if codes.isEmpty then [] else [(selfGame, codes)]
  else results

/-! ### The validator as the specification states it

A second definition, written from the specification's wording rather
than the source, used to compare `_is_valid_code` against the spec
(claim C4): not all digits, length at least 10, no occurrence of
`XXXX`, and either mixed letters and digits or letters-only with a
marker word properly contained. -/

/-- Validator acceptance condition as worded by the specification. -/
def claim_validator_spec (code : String) : Bool :=
  let cs := code.toList
  !(cs.all isDigitCh) && decide (10 ≤ cs.length) && !(strHasSubL "XXXX".toList cs) &&
    ((cs.any isAlphaCh && cs.any isDigitCh) ||
      (cs.all isAlphaCh &&
        special_keywords.any fun k => strHasSubL k.toList cs && code != k))

/-- The visited-check as the specification states it (claim C7): some
stored marker's URL-without-query-string is a string prefix of the
candidate URL-without-query-string. -/
def claim_visited_spec (db : List ScrapedArticleRec) (url : String) : Bool :=
  db.any fun rec => strStartsL (stripQuery rec.url).toList (stripQuery url).toList

/-! ### Helper lemmas -/

lemma charLe_iff (a b : Char) : a ≤ b ↔ a.toNat ≤ b.toNat := Iff.rfl

lemma isLowerCh_iff (c : Char) : isLowerCh c = true ↔ 97 ≤ c.toNat ∧ c.toNat ≤ 122 := by
  have ha : ('a' : Char).toNat = 97 := by decide
  have hz : ('z' : Char).toNat = 122 := by decide
  simp [isLowerCh, charLe_iff, ha, hz]

lemma isUpperCh_iff (c : Char) : isUpperCh c = true ↔ 65 ≤ c.toNat ∧ c.toNat ≤ 90 := by
  have ha : ('A' : Char).toNat = 65 := by decide
  have hz : ('Z' : Char).toNat = 90 := by decide
  simp [isUpperCh, charLe_iff, ha, hz]

lemma upChar_toNat_of_lower (c : Char) (h : isLowerCh c = true) :
    (upChar c).toNat = c.toNat - 32 := by
  rw [isLowerCh_iff] at h
  rw [upChar, if_pos]
  · rw [Char.ofNat, dif_pos]
    · simp [Char.ofNatAux, Char.toNat, UInt32.toNat, BitVec.toNat_ofNatLt]
    · constructor
      omega
  · rw [isLowerCh_iff]
    exact h

/-- Uppercasing an ASCII-alphanumeric character yields a character in
`[A-Z0-9]`. -/
lemma upChar_upperAlnum (c : Char) (h : isAlnumCh c = true) :
    isUpperAlnum (upChar c) = true := by
  by_cases hl : isLowerCh c = true
  · have h1 := upChar_toNat_of_lower c hl
    rw [isLowerCh_iff] at hl
    have h2 : isUpperCh (upChar c) = true := by
      rw [isUpperCh_iff]
      omega
    simp [isUpperAlnum, h2]
  · have he : upChar c = c := by
      rw [upChar, if_neg hl]
    rw [he]
    rw [isAlnumCh, isAlphaCh] at h
    rcases Bool.or_eq_true_iff.mp h with h' | h'
    · rcases Bool.or_eq_true_iff.mp h' with h'' | h''
      · simp [isUpperAlnum, h'']
      · exact absurd h'' hl
    · simp [isUpperAlnum, h']

/-- An `[A-Z0-9]` character that is not a digit is a letter. -/
lemma alpha_of_upperAlnum_not_digit (c : Char) (h : isUpperAlnum c = true)
    (hd : isDigitCh c = false) : isAlphaCh c = true := by
  rw [isUpperAlnum] at h
  rcases Bool.or_eq_true_iff.mp h with h' | h'
  · simp [isAlphaCh, h']
  · rw [h'] at hd
    exact absurd hd (by simp)

/-- A letter is not a digit. -/
lemma not_digit_of_alpha (c : Char) (h : isAlphaCh c = true) : isDigitCh c = false := by
  have h9 : ('9' : Char).toNat = 57 := by decide
  have h0 : ('0' : Char).toNat = 48 := by decide
  rw [isAlphaCh] at h
  rcases Bool.or_eq_true_iff.mp h with h' | h'
  · rw [isUpperCh_iff] at h'
    simp [isDigitCh, charLe_iff, h9, h0]
    omega
  · rw [isLowerCh_iff] at h'
    simp [isDigitCh, charLe_iff, h9, h0]
    omega

lemma mem_insertStr {a b : String} {l : List String} :
    a ∈ insertStr b l ↔ a = b ∨ a ∈ l := by
  induction l with
  | nil => simp [insertStr]
  | cons c t ih =>
    rw [insertStr]
    split
    · simp
    · rw [List.mem_cons, ih]
      simp [List.mem_cons]
      tauto

lemma mem_pySorted {a : String} {l : List String} : a ∈ pySorted l ↔ a ∈ l := by
  induction l with
  | nil => simp [pySorted]
  | cons b t ih =>
    rw [pySorted, mem_insertStr, ih]
    simp

/-- Every run produced by the URL scanner consists of `[A-Za-z0-9]`
characters (it is a `takeWhile isAlnumCh`). -/
lemma urlScanAux_alnum {fuel : Nat} {l : List Char} {r : List Char}
    (h : r ∈ urlScanAux fuel l) : r.all isAlnumCh = true := by
  induction fuel generalizing l with
  | zero => simp [urlScanAux] at h
  | succ fuel ih =>
    match l with
    | [] => simp [urlScanAux] at h
    | c :: t =>
      rw [urlScanAux] at h
      split at h
      · dsimp only at h
        split at h
        · exact ih h
        · rcases List.mem_cons.mp h with h' | h'
          · subst h'
            rw [List.all_eq_true]
            intro x hx
            exact List.mem_takeWhile_imp hx
          · exact ih h'
      · exact ih h

/-- Every value returned by `extract_from_url` is a string of
`[A-Z0-9]` characters. -/
lemma extract_from_url_upperAlnum {text : String} {c : String}
    (h : c ∈ extract_from_url text) : c.toList.all isUpperAlnum = true := by
  rw [extract_from_url] at h
  split at h
  · simp at h
  · rcases List.mem_map.mp h with ⟨run, hrun, hc⟩
    subst hc
    have halnum := urlScanAux_alnum hrun
    rw [List.all_eq_true] at halnum ⊢
    intro x hx
    rcases List.mem_map.mp hx with ⟨y, hy, hxy⟩
    subst hxy
    exact upChar_upperAlnum y (halnum y hy)

/-- Shape of the strings produced by the default-pattern scan. -/
lemma patternFindall_spec {l : List Char} {c : String} (h : c ∈ patternFindall l) :
    c.toList.all isUpperAlnum = true ∧ 8 ≤ c.toList.length ∧ c.toList.length ≤ 16 := by
  rw [patternFindall] at h
  rcases List.mem_map.mp h with ⟨r, hr, hc⟩
  subst hc
  have := (List.mem_filter.mp hr).2
  simp only [Bool.and_eq_true, decide_eq_true_eq] at this
  exact ⟨this.1.1, this.1.2, this.2⟩

/-- Membership characterization of `extract`. -/
lemma mem_extract_iff {text : String} {c : String} :
    c ∈ extract text ↔
      text ≠ "" ∧
        (c ∈ extract_from_url text ∨ c ∈ patternFindall (text.toList.map upChar)) ∧
        (c ∈ extract_from_url text ∨
          (c ∉ COMMON_EXCLUSIONS ∧ is_valid_code c = true)) := by
  rw [extract]
  split
  · simp_all
  · rw [mem_pySorted, List.mem_filter, List.mem_dedup, List.mem_append]
    simp only [Bool.or_eq_true, Bool.and_eq_true, Bool.not_eq_true']
    constructor
    · rintro ⟨h1, h2⟩
      refine ⟨by assumption, h1, ?_⟩
      rcases h2 with h2 | ⟨h2, h3⟩
      · left
        simpa using h2
      · right
        refine ⟨?_, h3⟩
        simpa using h2
    · rintro ⟨_, h1, h2⟩
      refine ⟨h1, ?_⟩
      rcases h2 with h2 | ⟨h2, h3⟩
      · left
        simpa using h2
      · right
        refine ⟨?_, h3⟩
        simpa using h2

/-- A validated code is never a pure-digit string: `_is_valid_code`
rejects all-digit candidates outright and requires length at least 10,
so an accepted candidate is nonempty and contains a non-digit. -/
lemma is_valid_code_not_all_digits {code : String} (h : is_valid_code code = true) :
    code.toList.all isDigitCh = false := by
  rw [is_valid_code] at h
  dsimp only at h
  split_ifs at h with h1 h2 h3 h4 h5
  all_goals
    by_contra hall
    rw [Bool.not_eq_false] at hall
    apply h1
    rw [pyIsDigit, hall, Bool.and_true]
    cases hcs : code.toList with
    | nil =>
      rw [hcs] at h2
      exact absurd (by decide) h2
    | cons a t => rfl

/-- On `[A-Z0-9]` candidates — the only candidates `extract` ever feeds
it — `_is_valid_code` computes exactly the acceptance condition worded
by the specification. -/
lemma valid_code_eq_claim (code : String) (h : code.toList.all isUpperAlnum = true) :
    is_valid_code code = claim_validator_spec code := by
  rw [is_valid_code, claim_validator_spec]
  dsimp only
  split_ifs with h1 h2 h3 h4 h5
  · rcases Bool.and_eq_true_iff.mp h1 with ⟨-, hall⟩
    rw [hall]
    rfl
  · have hlf : decide (10 ≤ code.toList.length) = false := decide_eq_false (by omega)
    rw [hlf]
    simp only [Bool.false_and, Bool.and_false]
  · rw [h3]
    simp only [Bool.not_true, Bool.false_and, Bool.and_false]
  · rcases Bool.and_eq_true_iff.mp h4 with ⟨hL, hD⟩
    rcases List.any_eq_true.mp hL with ⟨x, hx, hxa⟩
    have hnd : code.toList.all isDigitCh = false := by
      rw [Bool.eq_false_iff]
      intro hall
      have hxd := List.all_eq_true.mp hall x hx
      rw [not_digit_of_alpha x hxa] at hxd
      cases hxd
    have hlen : decide (10 ≤ code.toList.length) = true := decide_eq_true (by omega)
    have hx4 : strHasSubL "XXXX".toList code.toList = false := by
      rw [Bool.eq_false_iff]
      exact h3
    rw [hnd, hlen, hx4, hL, hD]
    rfl
  · rcases Bool.and_eq_true_iff.mp h5 with ⟨hL, hD⟩
    rw [Bool.not_eq_true'] at hD
    rcases List.any_eq_true.mp hL with ⟨x, hx, hxa⟩
    have hnd : code.toList.all isDigitCh = false := by
      rw [Bool.eq_false_iff]
      intro hall
      have hxd := List.all_eq_true.mp hall x hx
      rw [not_digit_of_alpha x hxa] at hxd
      cases hxd
    have hAL : code.toList.all isAlphaCh = true := by
      rw [List.all_eq_true]
      intro y hy
      refine alpha_of_upperAlnum_not_digit y (List.all_eq_true.mp h y hy) ?_
      rcases Bool.eq_false_or_eq_true (isDigitCh y) with ht | hf
      · exfalso
        have hany : code.toList.any isDigitCh = true := List.any_eq_true.mpr ⟨y, hy, ht⟩
        rw [hany] at hD
        cases hD
      · exact hf
    have hlen : decide (10 ≤ code.toList.length) = true := decide_eq_true (by omega)
    have hx4 : strHasSubL "XXXX".toList code.toList = false := by
      rw [Bool.eq_false_iff]
      exact h3
    rw [hnd, hlen, hx4, hL, hD, hAL]
    rfl
  · have hL : code.toList.any isAlphaCh = false := by
      rcases Bool.eq_false_or_eq_true (code.toList.any isAlphaCh) with ht | hf
      · exfalso
        rcases Bool.eq_false_or_eq_true (code.toList.any isDigitCh) with hdt | hdf
        · exact h4 (by rw [ht, hdt]; rfl)
        · exact h5 (by rw [ht, hdf]; rfl)
      · exact hf
    have hne : code.toList ≠ [] := by
      intro he
      rw [he] at h2
      exact h2 (by simp)
    have hAL : code.toList.all isAlphaCh = false := by
      rw [Bool.eq_false_iff]
      intro hall
      rcases List.exists_mem_of_ne_nil _ hne with ⟨x, hx⟩
      have hany : code.toList.any isAlphaCh = true :=
        List.any_eq_true.mpr ⟨x, hx, List.all_eq_true.mp hall x hx⟩
      rw [hany] at hL
      cases hL
    rw [hL, hAL]
    simp only [Bool.false_and, Bool.or_false, Bool.and_false]

/-! ### Claims C1–C4 and C10: the extractor -/

/-- C1, counterexample: the claim says every string returned by
`CodeExtractor.extract` has length at least 8, but a `code=`
URL-parameter value is returned unvalidated at any length: on the input
`"?code=AB"`, `extract` returns `"AB"`, of length 2. -/
theorem C1_counterexample :
    "AB" ∈ extract "?code=AB" ∧ ¬ (8 ≤ "AB".length) := by
  constructor
  · decide
  · decide

/-- C1 (amended): every string returned by `CodeExtractor.extract`
consists only of characters from `[A-Z0-9]`, and every returned string
that is not a URL-derived `code=` value has length at least 8 and at
most 16.  (URL-derived values can have any positive length.) -/
theorem C1_claim (text c : String) (h : c ∈ extract text) :
    c.toList.all isUpperAlnum = true ∧
      (c ∉ extract_from_url text → 8 ≤ c.length ∧ c.length ≤ 16) := by
  rcases mem_extract_iff.mp h with ⟨-, hmem, -⟩
  rcases hmem with hurl | hpat
  · exact ⟨extract_from_url_upperAlnum hurl, fun hn => absurd hurl hn⟩
  · rcases patternFindall_spec hpat with ⟨h1, h2, h3⟩
    exact ⟨h1, fun _ => ⟨h2, h3⟩⟩

/-- C1, witness for the amended theorem at a concrete extraction. -/
theorem C1_witness :
    "VTPU3CQWYCSD" ∈ extract "RIDEEM VTPU3CQWYCSD go" ∧
      ("VTPU3CQWYCSD".toList.all isUpperAlnum = true ∧
        ("VTPU3CQWYCSD" ∉ extract_from_url "RIDEEM VTPU3CQWYCSD go" →
          8 ≤ "VTPU3CQWYCSD".length ∧ "VTPU3CQWYCSD".length ≤ 16)) :=
  ⟨by decide, C1_claim "RIDEEM VTPU3CQWYCSD go" "VTPU3CQWYCSD" (by decide)⟩

/-- C2, counterexample: the claim says `extract` never returns a string
consisting only of digits, but a pure-digit `code=` URL-parameter value
bypasses the validator: on `"?code=12345678"`, `extract` returns
`"12345678"`. -/
theorem C2_counterexample :
    "12345678" ∈ extract "?code=12345678" ∧
      "12345678".toList.all isDigitCh = true := by
  constructor
  · decide
  · decide

/-- C2 (amended): no string returned by `extract` that is not a
URL-derived `code=` value consists only of digits (the validator
rejects pure-digit candidates); URL-derived values may be pure digits.
For the input `"SOME XXXX CODE1234"`, `extract` returns no codes at
all, in particular nothing containing `"XXXX"`. -/
theorem C2_claim :
    (∀ text c, c ∈ extract text → c ∉ extract_from_url text →
        c.toList.all isDigitCh = false) ∧
      extract "SOME XXXX CODE1234" = [] := by
  constructor
  · intro text c h hn
    rcases mem_extract_iff.mp h with ⟨-, -, hv⟩
    rcases hv with hv | ⟨-, hv⟩
    · exact absurd hv hn
    · exact is_valid_code_not_all_digits hv
  · decide

/-- C2, witness for the amended theorem at a concrete extraction. -/
theorem C2_witness :
    "VTPU3CQWYCSD" ∈ extract "x VTPU3CQWYCSD" ∧
      "VTPU3CQWYCSD" ∉ extract_from_url "x VTPU3CQWYCSD" ∧
      "VTPU3CQWYCSD".toList.all isDigitCh = false :=
  ⟨by decide, by decide,
    C2_claim.1 "x VTPU3CQWYCSD" "VTPU3CQWYCSD" (by decide) (by decide)⟩

/-- C3: every value found by `extract_from_url` (a `?code=`/`&code=`
URL parameter, key matched case-insensitively, alphanumeric value,
uppercased) is returned by `extract`, with no validator applied — the
membership holds for every text with no condition on the value.  On the
claim's concrete input, the mixed-case parameter `AbC123xyZ9` is
returned as `ABC123XYZ9`. -/
theorem C3_claim :
    (∀ text c, c ∈ extract_from_url text → c ∈ extract text) ∧
      extract_from_url "안내 https://genshin.hoyoverse.com/ko/gift?code=AbC123xyZ9 참고" =
        ["ABC123XYZ9"] ∧
      extract "안내 https://genshin.hoyoverse.com/ko/gift?code=AbC123xyZ9 참고" =
        ["ABC123XYZ9"] := by
  refine ⟨?_, by decide, by decide⟩
  intro text c h
  rw [mem_extract_iff]
  have hne : text ≠ "" := by
    rintro rfl
    rw [extract_from_url] at h
    simp at h
  exact ⟨hne, Or.inl h, Or.inl h⟩

/-- C3, witness: a URL-derived value is returned by extract. -/
theorem C3_witness :
    "AB12CD34" ∈ extract_from_url "보상: ?code=Ab12Cd34" ∧
      "AB12CD34" ∈ extract "보상: ?code=Ab12Cd34" :=
  ⟨by decide, C3_claim.1 "보상: ?code=Ab12Cd34" "AB12CD34" (by decide)⟩

/-- C4: on every candidate the general pattern can produce (a string of
`[A-Z0-9]` characters — the only candidates the validator is applied
to), `_is_valid_code` accepts exactly when the candidate is not all
digits, has length at least 10, does not contain `"XXXX"`, and either
mixes letters and digits or is letters-only containing one of `GIFT`,
`CODE`, `REWARD`, `FREE`, `BONUS` as a proper substring (not equal to
the marker word itself). -/
theorem C4_claim (code : String) (h : code.toList.all isUpperAlnum = true) :
    is_valid_code code = claim_validator_spec code :=
  valid_code_eq_claim code h

/-- C4, witness at a concrete mixed candidate. -/
theorem C4_witness :
    ("ABCDE12345".toList.all isUpperAlnum = true) ∧
      is_valid_code "ABCDE12345" = claim_validator_spec "ABCDE12345" :=
  ⟨by decide, C4_claim "ABCDE12345" (by decide)⟩

/-- C10: the exclusion list is applied by exact string equality only —
a pattern candidate not literally equal to an exclusion word is never
dropped by the exclusion filter, and is returned whenever the validator
accepts it; concretely, `"GENSHINGIFT2026"` contains the excluded word
`"GENSHIN"` as a proper substring yet is returned. -/
theorem C10_claim :
    (∀ text c, c ∈ patternFindall (text.toList.map upChar) →
        c ∉ COMMON_EXCLUSIONS → is_valid_code c = true → c ∈ extract text) ∧
      strHasSubL "GENSHIN".toList "GENSHINGIFT2026".toList = true ∧
      "GENSHINGIFT2026" ∉ COMMON_EXCLUSIONS ∧
      "GENSHINGIFT2026" ∈ extract "리딤 GENSHINGIFT2026 포함" := by
  refine ⟨?_, by decide, by decide, by decide⟩
  intro text c hpat hexc hval
  rw [mem_extract_iff]
  have hne : text ≠ "" := by
    rintro rfl
    have hz : patternFindall ((String.toList "").map upChar) = [] := by decide
    rw [hz] at hpat
    simp at hpat
  exact ⟨hne, Or.inr hpat, Or.inr ⟨hexc, hval⟩⟩

/-- C10, witness at the concrete candidate of the claim. -/
theorem C10_witness :
    "GENSHINGIFT2026" ∈ patternFindall ((String.toList "a GENSHINGIFT2026").map upChar) ∧
      "GENSHINGIFT2026" ∉ COMMON_EXCLUSIONS ∧
      is_valid_code "GENSHINGIFT2026" = true ∧
      "GENSHINGIFT2026" ∈ extract "a GENSHINGIFT2026" :=
  ⟨by decide, by decide, by decide,
    C10_claim.1 "a GENSHINGIFT2026" "GENSHINGIFT2026" (by decide) (by decide) (by decide)⟩

/-! ### LIKE-matcher lemmas (for claim C7) -/

/-- One-step unfolding of the matcher at a `%` pattern head. -/
lemma likeMatchAux_percent_unfold (f : Nat) (p s : List Char) :
    likeMatchAux (f + 1) ('%' :: p) s =
      (likeMatchAux f p s ||
        (match s with
         | [] => false
         | _ :: s' => likeMatchAux f ('%' :: p) s')) := rfl

/-- One-step unfolding of the matcher at a non-`%` pattern head. -/
lemma likeMatchAux_lit_unfold (f : Nat) (c : Char) (p s : List Char)
    (hc : (c == '%') = false) :
    likeMatchAux (f + 1) (c :: p) s =
      (match s with
       | [] => false
       | d :: s' => (c == '_' || lowChar c == lowChar d) && likeMatchAux f p s') := by
  simp only [likeMatchAux]
  rw [if_neg]
  rw [hc]
  exact Bool.false_ne_true

/-- A lone `%` pattern matches every subject, given enough fuel. -/
lemma likeMatchAux_percent_all : ∀ (f : Nat) (s : List Char), s.length + 1 < f →
    likeMatchAux f ['%'] s = true := by
  intro f
  induction f with
  | zero =>
    intro s h
    exact absurd h (Nat.not_lt_zero _)
  | succ f ih =>
    intro s hs
    rw [likeMatchAux_percent_unfold]
    match s with
    | [] =>
      match f, hs with
      | f' + 1, _ => rfl
    | d :: s' =>
      dsimp only
      have h2 : likeMatchAux f ['%'] s' = true := by
        apply ih
        simp only [List.length_cons] at hs
        omega
      rw [h2, Bool.or_true]

/-- On a wildcard-free prefix pattern, the matcher computes the
ASCII-case-insensitive starts-with test, given enough fuel. -/
lemma likeMatchAux_no_wild : ∀ (p : List Char), (∀ c ∈ p, ¬(c = '%' ∨ c = '_')) →
    ∀ (f : Nat) (s : List Char), p.length + 1 + s.length < f →
    likeMatchAux f (p ++ ['%']) s = ciStartsL p s := by
  intro p
  induction p with
  | nil =>
    intro _ f s hf
    rw [List.nil_append]
    rw [likeMatchAux_percent_all f s (by simp only [List.length_nil] at hf; omega)]
    rfl
  | cons c p' ih =>
    intro hp f s hf
    have hc1 : ¬(c = '%') := fun h => hp c (List.mem_cons_self c p') (Or.inl h)
    have hc2 : ¬(c = '_') := fun h => hp c (List.mem_cons_self c p') (Or.inr h)
    have hcb1 : (c == '%') = false := by
      rw [beq_eq_false_iff_ne]
      exact hc1
    have hcb2 : (c == '_') = false := by
      rw [beq_eq_false_iff_ne]
      exact hc2
    match f with
    | 0 => exact absurd hf (Nat.not_lt_zero _)
    | f + 1 =>
      rw [List.cons_append, likeMatchAux_lit_unfold f c _ _ hcb1]
      match s with
      | [] => rfl
      | d :: s' =>
        dsimp only
        rw [hcb2, Bool.false_or]
        rw [ih (fun x hx => hp x (List.mem_cons_of_mem c hx)) f s'
          (by simp only [List.length_cons] at hf ⊢; omega)]
        rfl

/-- On a wildcard-free prefix pattern, SQL `LIKE base || '%'` is exactly
the ASCII-case-insensitive starts-with test. -/
lemma likeMatch_no_wild (p : List Char) (hp : ∀ c ∈ p, ¬(c = '%' ∨ c = '_'))
    (s : List Char) : likeMatch (p ++ ['%']) s = ciStartsL p s := by
  rw [likeMatch]
  apply likeMatchAux_no_wild p hp
  simp only [List.length_append, List.length_cons, List.length_nil]
  omega

/-! ### Claim C7: the visited-check -/

/-- C7, counterexample: the claim's visited condition (some stored
marker's URL-without-query-string is a prefix of the candidate's
URL-without-query-string) holds for the stored marker
`https://a/b/123` and candidate `https://a/b/1234`, yet `is_scraped`
answers false — the code tests the reverse direction: whether a stored
full URL starts with the candidate's base URL. -/
theorem C7_counterexample :
    claim_visited_spec [⟨"https://a/b/123", "g", none, 0⟩] "https://a/b/1234" = true ∧
      is_scraped [⟨"https://a/b/123", "g", none, 0⟩] "https://a/b/1234" = false := by
  constructor
  · decide
  · decide

/-- C7 (amended): `ArticleService.is_scraped` returns true if and only
if some stored marker's full URL (query string included) starts —
ASCII-case-insensitively, as SQLite's default `LIKE` compares — with
the candidate URL-without-query-string; stated for candidates whose
base URL contains no `LIKE` wildcard characters (`%`, `_`), where the
`LIKE base || '%'` pattern means exactly that. -/
theorem C7_claim (db : List ScrapedArticleRec) (url : String)
    (hw : ∀ c ∈ (stripQuery url).toList, ¬(c = '%' ∨ c = '_')) :
    is_scraped db url = true ↔
      ∃ rec ∈ db, ciStartsL (stripQuery url).toList rec.url.toList = true := by
  rw [is_scraped]
  rw [List.any_eq_true]
  apply exists_congr
  intro rec
  apply and_congr_right
  intro _
  rw [likeMatch_no_wild (stripQuery url).toList hw rec.url.toList]

/-- C7, witness: a candidate differing from the stored URL only in its
query string is recognized as visited. -/
theorem C7_witness :
    (∀ c ∈ (stripQuery "https://arca.live/b/genshin/101?p=2").toList,
        ¬(c = '%' ∨ c = '_')) ∧
      is_scraped [⟨"https://arca.live/b/genshin/101", "genshin", none, 3⟩]
        "https://arca.live/b/genshin/101?p=2" = true :=
  ⟨by decide,
    (C7_claim [⟨"https://arca.live/b/genshin/101", "genshin", none, 3⟩]
        "https://arca.live/b/genshin/101?p=2" (by decide)).mpr
      ⟨⟨"https://arca.live/b/genshin/101", "genshin", none, 3⟩, by decide, by decide⟩⟩

/-! ### Claim C8: code uniqueness across games -/

/-- C8: saving the same (previously unseen) code string under two
different games: the first `save_code` succeeds; the second returns a
success flag of false with the pre-existing-code message (not an error
message), leaves the table unchanged, and the first game's record is
the one stored. -/
theorem C8_claim (db : List RedeemCodeRec) (c g1 g2 : String)
    (u1 t1 u2 t2 : Option String) (h : code_exists db c = false) :
    (save_code db c g1 u1 t1).2.1 = true ∧
      (save_code (save_code db c g1 u1 t1).1 c g2 u2 t2).2.1 = false ∧
      (save_code (save_code db c g1 u1 t1).1 c g2 u2 t2).2.2 =
        "이미 존재하는 코드: " ++ c ∧
      (save_code (save_code db c g1 u1 t1).1 c g2 u2 t2).1 =
        (save_code db c g1 u1 t1).1 ∧
      RedeemCodeRec.mk c g1 u1 t1 ∈ (save_code db c g1 u1 t1).1 := by
  have e1 : save_code db c g1 u1 t1 =
      (db ++ [⟨c, g1, u1, t1⟩], true, "새 코드 저장됨: " ++ c) := by
    rw [save_code, if_neg]
    rw [h]
    exact Bool.false_ne_true
  have hex : code_exists (db ++ [⟨c, g1, u1, t1⟩]) c = true := by
    rw [code_exists, List.any_append]
    have h2 : (([⟨c, g1, u1, t1⟩] : List RedeemCodeRec).any fun rec => rec.code == c) =
        true := by
      simp
    rw [h2, Bool.or_true]
  have e2 : save_code (db ++ [⟨c, g1, u1, t1⟩]) c g2 u2 t2 =
      (db ++ [⟨c, g1, u1, t1⟩], false, "이미 존재하는 코드: " ++ c) := by
    rw [save_code, if_pos hex]
  rw [e1, e2]
  refine ⟨rfl, rfl, rfl, rfl, ?_⟩
  exact List.mem_append_right db (List.mem_singleton.mpr rfl)

/-- C8, witness at a fresh code saved under two games. -/
theorem C8_witness :
    code_exists [] "ABCD1234EF" = false ∧
      ((save_code [] "ABCD1234EF" "genshin" none none).2.1 = true ∧
        (save_code (save_code [] "ABCD1234EF" "genshin" none none).1
            "ABCD1234EF" "starrail" none none).2.1 = false ∧
        (save_code (save_code [] "ABCD1234EF" "genshin" none none).1
            "ABCD1234EF" "starrail" none none).2.2 =
          "이미 존재하는 코드: " ++ "ABCD1234EF" ∧
        (save_code (save_code [] "ABCD1234EF" "genshin" none none).1
            "ABCD1234EF" "starrail" none none).1 =
          (save_code [] "ABCD1234EF" "genshin" none none).1 ∧
        RedeemCodeRec.mk "ABCD1234EF" "genshin" none none ∈
          (save_code [] "ABCD1234EF" "genshin" none none).1) :=
  ⟨by decide,
    C8_claim [] "ABCD1234EF" "genshin" "starrail" none none none none (by decide)⟩

/-! ### Claim C5: listing-page age cutoff and pagination stop -/

/-- A newest-first listing page of 10 article entries where entry 7 is
the first one older than the cutoff (cutoff 10 in the model's time
scale). -/
def c5Entries : List ListEntry :=
  [ ⟨"/b/genshin/1", "t1", some 100⟩,
    ⟨"/b/genshin/2", "t2", some 99⟩,
    ⟨"/b/genshin/3", "t3", some 98⟩,
    ⟨"/b/genshin/4", "t4", some 97⟩,
    ⟨"/b/genshin/5", "t5", some 96⟩,
    ⟨"/b/genshin/6", "t6", some 95⟩,
    ⟨"/b/genshin/7", "t7", some 5⟩,
    ⟨"/b/genshin/8", "t8", some 4⟩,
    ⟨"/b/genshin/9", "t9", some 3⟩,
    ⟨"/b/genshin/10", "t10", some 2⟩ ]

/-- The site as the crawler would see it: page 1 is `c5Entries`; page 2
holds a fresh eligible article which would be collected if the page
were ever fetched. -/
def c5Pages : Nat → List ListEntry := fun n =>
  if n = 1 then c5Entries
  else if n = 2 then [⟨"/b/genshin/99", "fresh", some 100⟩] else []

/-- C5, counterexample: the claim says entries 1–7 are processed and
8–10 excluded; in fact entry 7 — the old entry itself — is skipped by
the `continue` in `get_article_list`, so only entries 1–6 are
processed; pages after page 1 are indeed never fetched. -/
theorem C5_counterexample :
    (scrape_articles_pages c5Pages 10 (fun _ => false) true 3 10).1 =
        [ ("https://arca.live/b/genshin/1", "t1"),
          ("https://arca.live/b/genshin/2", "t2"),
          ("https://arca.live/b/genshin/3", "t3"),
          ("https://arca.live/b/genshin/4", "t4"),
          ("https://arca.live/b/genshin/5", "t5"),
          ("https://arca.live/b/genshin/6", "t6") ] ∧
      ("https://arca.live/b/genshin/7", "t7") ∉
        (scrape_articles_pages c5Pages 10 (fun _ => false) true 3 10).1 ∧
      (scrape_articles_pages c5Pages 10 (fun _ => false) true 3 10).2 = [1] := by
  refine ⟨by decide, by decide, by decide⟩

/-- C5 (amended): once the listing page being fetched contains any
entry older than the cutoff, the crawler processes exactly the
remaining *eligible* entries of that same page (entries older than the
cutoff are themselves excluded, as are non-article links and
already-visited ones), up to the article budget, and fetches no
subsequent listing page.  In the claim's concrete scenario (entry 7 of
10 old), entries 1–6 are processed and 7–10 are excluded. -/
theorem C5_claim (pages : Nat → List ListEntry) (cutoff : Nat)
    (isScr : String → Bool) (skipScr : Bool) (maxArticles page processed fuel : Nat)
    (hbudget : processed < maxArticles)
    (hold : (get_article_list_core cutoff isScr skipScr (pages page)).2 = true) :
    (crawl_pages pages cutoff isScr skipScr maxArticles page processed (fuel + 1)).2 =
        [page] ∧
      (crawl_pages pages cutoff isScr skipScr maxArticles page processed (fuel + 1)).1 =
        (get_article_list_core cutoff isScr skipScr (pages page)).1.take
          (maxArticles - processed) := by
  rcases hq : get_article_list_core cutoff isScr skipScr (pages page) with ⟨lst, fo⟩
  rw [hq] at hold
  have hfo : fo = true := hold
  subst hfo
  rw [crawl_pages, if_neg (by omega), hq]
  dsimp only
  by_cases hL : lst.isEmpty = true
  · rw [if_pos hL, if_pos rfl]
    refine ⟨rfl, ?_⟩
    rw [List.isEmpty_iff.mp hL, List.take_nil]
  · rw [if_neg hL, if_pos rfl]
    exact ⟨rfl, rfl⟩

/-- C5, witness at the concrete scenario. -/
theorem C5_witness :
    (0 < 10) ∧
      (get_article_list_core 10 (fun _ => false) true (c5Pages 1)).2 = true ∧
      (crawl_pages c5Pages 10 (fun _ => false) true 10 1 0 3).2 = [1] ∧
      (crawl_pages c5Pages 10 (fun _ => false) true 10 1 0 3).1 =
        (get_article_list_core 10 (fun _ => false) true (c5Pages 1)).1.take (10 - 0) :=
  ⟨by decide, by decide,
    (C5_claim c5Pages 10 (fun _ => false) true 10 1 0 2 (by decide) (by decide)).1,
    (C5_claim c5Pages 10 (fun _ => false) true 10 1 0 2 (by decide) (by decide)).2⟩

/-! ### Claim C6: detail-level age re-check -/

/-- The detail stage skips an article as old exactly when the chosen
timestamp (modified if parsed, else posted) exists and is older than
the cutoff. -/
lemma process_detail_skippedOld_iff (cutoff : Nat) (hasKw : String → Bool)
    (title : String) (content : Option String) (posted_at modified_at : Option Nat) :
    process_detail cutoff hasKw title content posted_at modified_at =
        DetailStep.skippedOld ↔
      (match check_date modified_at posted_at with
       | some d => d < cutoff
       | none => False) := by
  rw [process_detail.eq_def]
  dsimp only
  rcases hc : check_date modified_at posted_at with _ | d
  · rw [if_neg (fun hcon => Bool.false_ne_true hcon)]
    constructor
    · intro h
      exfalso
      split at h
      · exact DetailStep.noConfusion h
      · exact DetailStep.noConfusion h
    · intro h
      exact h.elim
  · by_cases hd : d < cutoff
    · rw [if_pos (by exact decide_eq_true hd)]
      constructor
      · intro _
        exact hd
      · intro _
        rfl
    · rw [if_neg (fun hcon => hd (of_decide_eq_true hcon))]
      constructor
      · intro h
        exfalso
        split at h
        · exact DetailStep.noConfusion h
        · exact DetailStep.noConfusion h
      · intro h
        exact absurd h hd

/-- C6: at the detail stage the age re-check uses the modified
timestamp when one was parsed and otherwise the posted timestamp; if
the chosen timestamp is older than the cutoff the article is skipped
as old (recorded with zero codes found, extraction not run); if no
timestamp at all was parsed the article is never skipped as old. -/
theorem C6_claim (cutoff : Nat) (hasKw : String → Bool) (title : String)
    (content : Option String) (posted_at modified_at : Option Nat) :
    (∀ m, modified_at = some m →
        (process_detail cutoff hasKw title content posted_at modified_at =
            DetailStep.skippedOld ↔ m < cutoff)) ∧
      (modified_at = none → ∀ p, posted_at = some p →
        (process_detail cutoff hasKw title content posted_at modified_at =
            DetailStep.skippedOld ↔ p < cutoff)) ∧
      (modified_at = none → posted_at = none →
        process_detail cutoff hasKw title content posted_at modified_at ≠
          DetailStep.skippedOld) ∧
      (process_detail cutoff hasKw title content posted_at modified_at =
          DetailStep.skippedOld →
        recorded_codes_found
            (process_detail cutoff hasKw title content posted_at modified_at) = 0 ∧
          extraction_ran
            (process_detail cutoff hasKw title content posted_at modified_at) =
            false) := by
  refine ⟨?_, ?_, ?_, ?_⟩
  · intro m hm
    subst hm
    rw [process_detail_skippedOld_iff]
    exact Iff.rfl
  · intro hm p hp
    subst hm
    subst hp
    rw [process_detail_skippedOld_iff]
    exact Iff.rfl
  · intro hm hp
    subst hm
    subst hp
    intro h
    rw [process_detail_skippedOld_iff] at h
    exact h
  · intro he
    rw [he]
    exact ⟨rfl, rfl⟩

/-- C6, witness: with a modified timestamp older than the cutoff (and a
fresh posted timestamp), the article is skipped as old. -/
theorem C6_witness :
    process_detail 10 (fun _ => true) "T" none (some 50) (some 3) =
      DetailStep.skippedOld :=
  ((C6_claim 10 (fun _ => true) "T" none (some 50) (some 3)).1 3 rfl).mpr
    (by decide)

/-! ### Claim C9: feed-variant fallback -/

/-- C9, counterexample: the claim says the whole-item fallback runs
exactly when no configured game tag occurs anywhere in the text; here
the tag `[스타레일]` occurs, but its segment yields no codes, so the
per-tag pass is empty and the fallback still runs, extracting the
URL-parameter code from the whole item under the crawl's declared game
(`genshin` — a game no per-tag result could carry here). -/
theorem C9_counterexample :
    strHasSubL "[스타레일]".toList "?code=ab12cd34 [스타레일] 본문".toList = true ∧
      tag_results DEFAULT_GAME_TAGS "?code=ab12cd34 [스타레일] 본문" = [] ∧
      parse_game_codes DEFAULT_GAME_TAGS "genshin" "?code=ab12cd34 [스타레일] 본문" =
        [("genshin", ["AB12CD34"])] := by
  refine ⟨by decide, by decide, by decide⟩

/-- C9 (amended): the whole-item fallback runs exactly when the per-tag
pass yields no results — that is, when no configured tag occurs in the
text, or every occurring tag's segment yields no codes — and the
crawl's declared game is not the multi-game marker `"_multi"`; when
the per-tag pass yields at least one result, only those results
contribute. -/
theorem C9_claim (tags : List (String × String)) (selfGame : String)
    (content : String) :
    (tag_results tags content ≠ [] →
        parse_game_codes tags selfGame content = tag_results tags content) ∧
      (tag_results tags content = [] → selfGame ≠ "_multi" →
        parse_game_codes tags selfGame content =
          (if (extract content).isEmpty then []
           else [(selfGame, extract content)])) ∧
      (tag_results tags content = [] → selfGame = "_multi" →
        parse_game_codes tags selfGame content = []) := by
  refine ⟨?_, ?_, ?_⟩
  · intro hne
    rw [parse_game_codes]
    dsimp only
    rw [if_neg]
    intro hcon
    rcases Bool.and_eq_true_iff.mp hcon with ⟨h1, -⟩
    exact hne (List.isEmpty_iff.mp h1)
  · intro he hm
    rw [parse_game_codes]
    dsimp only
    rw [if_pos]
    rw [he]
    simp [hm]
  · intro he hm
    rw [parse_game_codes]
    dsimp only
    rw [if_neg]
    · exact he
    · simp [hm]

/-- C9, witness for the amended theorem at the concrete feed item. -/
theorem C9_witness :
    tag_results DEFAULT_GAME_TAGS "?code=ab12cd34 [스타레일] 본문" = [] ∧
      "genshin" ≠ "_multi" ∧
      parse_game_codes DEFAULT_GAME_TAGS "genshin" "?code=ab12cd34 [스타레일] 본문" =
        (if (extract "?code=ab12cd34 [스타레일] 본문").isEmpty then []
         else [("genshin", extract "?code=ab12cd34 [스타레일] 본문")]) :=
  ⟨by decide, by decide,
    (C9_claim DEFAULT_GAME_TAGS "genshin" "?code=ab12cd34 [스타레일] 본문").2.1
      (by decide) (by decide)⟩
